import Mathlib

/-!
Verification of the backend execution orchestration layer
(`thonny/running.py`): the message queue and output coalescer, the
execution state machine of `CPythonProxy`, process start/kill, the
stdout listener loop, and `Runner.execute_script` command-line
synthesis.

Python dictionaries that represent wire messages are modelled by the
structure `Msg` holding the fields the orchestration layer reads
(`message_type`, `stream_name`, `data`, `cwd`, `path`); the message
queue (`collections.deque`) is modelled by a `List Msg` with its front
at the head, wrapped in `Option` because `CPythonProxy.__init__` sets
`self._message_queue = None` and `kill_current_process` resets it to
`None`.
-/

set_option autoImplicit false

namespace PyStart

/-- A decoded wire message (a Python dict in the source).  Fields not
read by the orchestration layer are irrelevant to the verified
properties and are omitted. -/
structure Msg where
  message_type : String
  stream_name : String := ""
  data : String := ""
  cwd : Option String := none
  path : List String := []
  deriving Repr, DecidableEq

/-- The inner `while True` loop of `CPythonProxy._fetch_next_message`:
starting from the already-popped `ProgramOutput` message `msg`, keep
popping the queue and appending the `data` of messages that are
`ProgramOutput` on the same `stream_name`; at the first non-matching
message, put it back at the front (`appendleft`) and stop. -/
def coalesceOutput (msg : Msg) : List Msg → Msg × List Msg
  | [] => (msg, [])
  | next_msg :: rest =>
    if next_msg.message_type = "ProgramOutput"
        ∧ next_msg.stream_name = msg.stream_name then
      coalesceOutput { msg with data := msg.data ++ next_msg.data } rest
    else
      (msg, next_msg :: rest)

/-- `CPythonProxy._fetch_next_message`: returns `None` when the queue
is `None` or empty; otherwise pops the front message and, when it is a
`ProgramOutput` message, coalesces the immediately following matching
output messages into it.  The second component is the queue left
behind. -/
def _fetch_next_message (queue : Option (List Msg)) :
    Option Msg × Option (List Msg) :=
  match queue with
  | none => (none, none)
  | some [] => (none, some [])
  | some (msg :: rest) =>
    if msg.message_type = "ProgramOutput" then
      let r := coalesceOutput msg rest
      (some r.1, some r.2)
    else
      (some msg, some rest)

/-- A live or exited child process handle (`subprocess.Popen` object);
`alive = true` models `poll() is None`. -/
structure Proc where
  alive : Bool := true
  deriving Repr, DecidableEq

/-- The mutable state of a `CPythonProxy` instance, as set up by
`CPythonProxy.__init__` (which leaves `_proc`, `_state` and
`_message_queue` as `None` and `_sys_path` as `[]`). -/
structure ProxyState where
  _executable : String
  cwd : String
  _proc : Option Proc := none
  _state : Option String := none
  _message_queue : Option (List Msg) := none
  _sys_path : List String := []

/-- `CPythonProxy.__init__` (the part relevant to verification): a
fresh proxy has no process, no state, no message queue and an empty
`_sys_path`. -/
def initProxy (executable cwd : String) : ProxyState :=
  { _executable := executable, cwd := cwd }

/-- `CPythonProxy.get_state`. -/
def get_state (ps : ProxyState) : Option String :=
  ps._state

/-- `CPythonProxy.get_sys_path`. -/
def get_sys_path (ps : ProxyState) : List String :=
  ps._sys_path

/-- `CPythonProxy.fetch_next_message`: delegates to
`_fetch_next_message` and then applies the state-transition table on
the `message_type` of the returned message. -/
def fetch_next_message (ps : ProxyState) : Option Msg × ProxyState :=
  let r := _fetch_next_message ps._message_queue
  let st : Option String :=
    match r.1 with
    | some m =>
      if m.message_type = "ToplevelResult" then some "waiting_toplevel_command"
      else if m.message_type = "DebuggerProgress" then some "waiting_debug_command"
      else if m.message_type = "InputRequest" then some "waiting_input"
      else ps._state
    | none => ps._state
  (r.1, { ps with _message_queue := r.2, _state := st })

/-- Specification-side predicate: `m` is a `ProgramOutput` message on
stream `s` (used to state the coalescing property through
`takeWhile`/`dropWhile`, independently of the loop in the source). -/
def sameStreamOutput (s : String) (m : Msg) : Bool :=
  m.message_type == "ProgramOutput" && m.stream_name == s

/-- Concatenation of the `data` payloads of a list of messages, in
order. -/
def concatData : List Msg → String
  | [] => ""
  | m :: rest => m.data ++ concatData rest

/-- Shorthand for a `ProgramOutput` message. -/
def po (stream data : String) : Msg :=
  { message_type := "ProgramOutput", stream_name := stream, data := data }

theorem coalesceOutput_eq (q : List Msg) : ∀ (m : Msg),
    coalesceOutput m q =
      ({ m with data := m.data ++ concatData (q.takeWhile (sameStreamOutput m.stream_name)) },
        q.dropWhile (sameStreamOutput m.stream_name)) := by
  induction q with
  | nil =>
    intro m
    simp [coalesceOutput, concatData]
  | cons next rest ih =>
    intro m
    by_cases h : next.message_type = "ProgramOutput" ∧ next.stream_name = m.stream_name
    · have hb : sameStreamOutput m.stream_name next = true := by
        simp [sameStreamOutput, h.1, h.2]
      simp only [coalesceOutput, if_pos h, List.takeWhile_cons, hb,
        List.dropWhile_cons, ih]
      simp [concatData, String.append_assoc]
    · have hb : sameStreamOutput m.stream_name next = false := by
        simp only [sameStreamOutput, Bool.and_eq_false_iff]
        rcases not_and_or.mp h with h1 | h1
        · exact Or.inl (by simpa using h1)
        · exact Or.inr (by simpa using h1)
      simp only [coalesceOutput, if_neg h, List.takeWhile_cons, hb,
        List.dropWhile_cons]
      simp [concatData]

/-- A command sent to the backend (`thonny.common` command classes;
only the attributes `running.py` reads are modelled).  `toplevel`
carries the optional `filename`, `args` and `environment` attributes
(`hasattr` in the source corresponds to `Option.isSome` here). -/
inductive Cmd where
  | toplevel (command : String) (filename : Option String := none)
      (args : Option (List String) := none)
      (environment : Option (List (String × String)) := none)
  | inline (command : String)
  | debugger (command : String)
  | inputSubmission (data : String)
  deriving Repr

/-- `isinstance(cmd, ToplevelCommand) or isinstance(cmd, DebuggerCommand)
or isinstance(cmd, InputSubmission)` — the commands whose sending sets
the state to `running`. -/
def isStateSetter : Cmd → Bool
  | .toplevel _ _ _ _ => true
  | .debugger _ => true
  | .inputSubmission _ => true
  | .inline _ => false

/-- `isinstance(cmd, ToplevelCommand) and cmd.command in ("Run",
"Debug", "Reset")` — the commands that kill the current process and
start a new one. -/
def isProcessStarter : Cmd → Bool
  | .toplevel c _ _ _ => ["Run", "Debug", "Reset"].contains c
  | _ => false

/-- The `environment` attribute of a command, when present
(`hasattr(cmd, "environment")`). -/
def cmdEnvironment : Cmd → Option (List (String × String))
  | .toplevel _ _ _ env => env
  | _ => none

/-- Errors raised by the proxy, named after the exceptions in the
source: `UserError` for a missing interpreter, the bare `Exception`
raised on a failed startup handshake, a decode failure propagating out
of `parse_message`, and the `AttributeError` hit when writing to
`self._proc.stdin` while `self._proc` is `None`. -/
inductive Err where
  | userError (msg : String)
  | startupError (msg : String)
  | malformedMessage (msg : String)
  | attributeError
  deriving Repr, DecidableEq

/-- `pat` is a prefix of `l` (character-level helper for the Python
`in` substring test). -/
def listStartsWith : List Char → List Char → Bool
  | [], _ => true
  | _ :: _, [] => false
  | p :: ps, c :: cs => p == c && listStartsWith ps cs

/-- `pat` occurs as a contiguous run somewhere in `l`. -/
def listHasSub (pat : List Char) : List Char → Bool
  | [] => listStartsWith pat []
  | c :: cs => listStartsWith pat (c :: cs) || listHasSub pat cs

/-- `name.lower()`: character-wise ASCII lowering. -/
def strToLower (s : String) : String :=
  String.mk (s.toList.map Char.toLower)

/-- `pat in s` (Python substring membership). -/
def strContainsSub (s pat : String) : Bool :=
  listHasSub pat.toList s.toList

/-- A Python dict modelled as an insertion-ordered association list:
`env[k] = v` replaces the value at an existing key in place, otherwise
appends. -/
def envSet (env : List (String × String)) (k v : String) :
    List (String × String) :=
  if env.any (fun p => p.1 == k) then
    env.map (fun p => if p.1 == k then (k, v) else p)
  else
    env ++ [(k, v)]

/-- `dict.update`: set every key-value pair of `overrides` in order. -/
def envUpdate (env overrides : List (String × String)) :
    List (String × String) :=
  overrides.foldl (fun e kv => envSet e kv.1 kv.2) env

/-- `env.get(k)`: the value at the first entry with key `k`. -/
def envLookup (env : List (String × String)) (k : String) :
    Option String :=
  (env.find? (fun p => p.1 == k)).map (fun p => p.2)

/-- The filter of `_start_new_process`'s environment loop: keep `name`
unless `"python" in name.lower()` or `name in ["TK_LIBRARY",
"TCL_LIBRARY"]`. -/
def keepEnvVar (name : String) : Bool :=
  !(strContainsSub (strToLower name) "python")
    && !(["TK_LIBRARY", "TCL_LIBRARY"].contains name)

/-- The environment built at the top of `_start_new_process`: host
variables surviving `keepEnvVar`, then `PYTHONIOENCODING = "ASCII"`
and `PYTHONUNBUFFERED = "1"`. -/
def buildBaseEnv (environ : List (String × String)) :
    List (String × String) :=
  envSet (envSet (environ.filter (fun p => keepEnvVar p.1))
      "PYTHONIOENCODING" "ASCII")
    "PYTHONUNBUFFERED" "1"

/-- The inputs the proxy obtains from the operating system and from
the `thonny.common` codec (whose source file is not part of this
repository; per the spec it serializes a command to one line and
parses a line into a tagged record, failing on invalid frames, so it
is kept abstract here): path existence, the host environment, the
launcher path produced by `_prepare_launcher`, the first stdout line
of the spawned child (`""` meaning end-of-stream), the readable stderr
content, and the codec. -/
structure Sys where
  pathExists : String → Bool
  environ : List (String × String)
  launcherPath : String
  handshakeLine : String
  stderrContent : String
  parse : String → Except String Msg
  serialize : Cmd → String

/-- The record of a spawned child process: its argument vector,
environment and working directory as passed to `subprocess.Popen`. -/
structure SpawnRecord where
  cmdLine : List String
  env : List (String × String)
  cwd : String
  deriving Repr, DecidableEq

/-- Observable side effects of a proxy operation: processes spawned,
listener threads started, events emitted via `event_generate`, lines
written to the child's stdin, and processes killed. -/
structure Effects where
  spawned : List SpawnRecord := []
  threadsStarted : Nat := 0
  emitted : List (String × Msg) := []
  stdinWrites : List String := []
  kills : Nat := 0
  deriving Repr, DecidableEq

/-- Sequential composition of effect records. -/
def mergeEffects (a b : Effects) : Effects :=
  { spawned := a.spawned ++ b.spawned,
    threadsStarted := a.threadsStarted + b.threadsStarted,
    emitted := a.emitted ++ b.emitted,
    stdinWrites := a.stdinWrites ++ b.stdinWrites,
    kills := a.kills + b.kills }

/-- `CPythonProxy.kill_current_process`: only when a process handle
exists and `poll()` reports it still alive, kill it and reset both the
handle and the message queue to `None`; otherwise do nothing. -/
def kill_current_process (ps : ProxyState) : ProxyState × Effects :=
  match ps._proc with
  | some p =>
    if p.alive then
      ({ ps with _proc := none, _message_queue := none }, { kills := 1 })
    else
      (ps, {})
  | none => (ps, {})

/-- `CPythonProxy._start_new_process`, in source order: install a
fresh empty message queue; build the filtered environment; raise
`UserError` if the executable path does not exist; build the argument
vector `[executable, "-u", "-B", launcher] (+ filename (+ args))`;
merge `cmd.environment` if present; spawn; read one handshake line
from stdout, raising on end-of-stream with the stderr content;
parse it, store its `path` into `_sys_path`, emit `BackendReady`, and
start the two listener threads.  Mutations made before a raise persist
in the returned state, as they do in the Python object. -/
def _start_new_process (osys : Sys) (cmd : Cmd) (ps0 : ProxyState) :
    Except Err Unit × ProxyState × Effects :=
  let ps := { ps0 with _message_queue := some ([] : List Msg) }
  let my_env := buildBaseEnv osys.environ
  if osys.pathExists ps._executable = false then
    (.error (.userError ("Interpreter (" ++ ps._executable
        ++ ") not found. Please recheck corresponding option!")), ps, {})
  else
    let backend_launcher := osys.launcherPath
    let cmd_line := [ps._executable, "-u", "-B", backend_launcher]
      ++ (match cmd with
          | .toplevel _ (some fn) args _ => fn :: args.getD []
          | _ => [])
    let my_env := match cmdEnvironment cmd with
      | some e => envUpdate my_env e
      | none => my_env
    let ps := { ps with _proc := some { alive := true } }
    let spawnEff : Effects :=
      { spawned := [{ cmdLine := cmd_line, env := my_env, cwd := ps.cwd }] }
    if osys.handshakeLine = "" then
      (.error (.startupError ("Error starting backend process: "
          ++ osys.stderrContent)), ps, spawnEff)
    else
      match osys.parse osys.handshakeLine with
      | .error e => (.error (.malformedMessage e), ps, spawnEff)
      | .ok ready_msg =>
        (.ok (), { ps with _sys_path := ready_msg.path },
          { spawnEff with
              emitted := [("BackendReady", ready_msg)],
              threadsStarted := 2 })

/-- `CPythonProxy.send_command`: under the state lock, set the state
to `running` for toplevel/debugger/input-submission commands; for
toplevel `Run`/`Debug`/`Reset` commands kill the current process and
start a new one; finally write the serialized command plus a newline
to the process's stdin (an `AttributeError` when no process exists). -/
def send_command (osys : Sys) (cmd : Cmd) (ps0 : ProxyState) :
    Except Err Unit × ProxyState × Effects :=
  let ps1 := if isStateSetter cmd then { ps0 with _state := some "running" } else ps0
  let step :=
    if isProcessStarter cmd then
      let r1 := kill_current_process ps1
      let r2 := _start_new_process osys cmd r1.1
      (r2.1, r2.2.1, mergeEffects r1.2 r2.2.2)
    else
      ((.ok () : Except Err Unit), ps1, ({} : Effects))
  match step.1 with
  | .error e => (.error e, step.2.1, step.2.2)
  | .ok _ =>
    match step.2.1._proc with
    | none => (.error .attributeError, step.2.1, step.2.2)
    | some _ =>
      (.ok (), step.2.1,
        { step.2.2 with
            stdinWrites := step.2.2.stdinWrites ++ [osys.serialize cmd ++ "\n"] })

/-- `Runner._advance_background_tk_mainloop` (one tick, without the
rescheduling): when the proxy state is `waiting_toplevel_command`,
send `InlineCommand("tkupdate")`; otherwise do nothing. -/
def _advance_background_tk_mainloop (osys : Sys) (ps : ProxyState) :
    Except Err Unit × ProxyState × Effects :=
  if get_state ps = some "waiting_toplevel_command" then
    send_command osys (.inline "tkupdate") ps
  else
    (.ok (), ps, {})

/-- C1: one `_fetch_next_message` call pops the front event; for a
`ProgramOutput` front event it concatenates, in order, the `data` of
the immediately following `ProgramOutput` events with the same
`stream_name`, stopping at the first non-matching event (which stays
at the front of the remaining queue); for any other front event it
just pops it.  On the queue `[ProgramOutput(stdout,"a"),
ProgramOutput(stdout,"b"), ProgramOutput(stderr,"x"),
ProgramOutput(stdout,"c")]`, three successive calls return
`ProgramOutput(stdout,"ab")`, `ProgramOutput(stderr,"x")` and
`ProgramOutput(stdout,"c")`. -/
theorem C1_fetch_coalesces_output :
    (∀ (m : Msg) (rest : List Msg), m.message_type = "ProgramOutput" →
      _fetch_next_message (some (m :: rest)) =
        (some { m with data :=
                  m.data ++ concatData (rest.takeWhile (sameStreamOutput m.stream_name)) },
          some (rest.dropWhile (sameStreamOutput m.stream_name))))
    ∧ (∀ (m : Msg) (rest : List Msg), m.message_type ≠ "ProgramOutput" →
        _fetch_next_message (some (m :: rest)) = (some m, some rest))
    ∧ (let q0 := [po "stdout" "a", po "stdout" "b", po "stderr" "x", po "stdout" "c"]
       let r1 := _fetch_next_message (some q0)
       let r2 := _fetch_next_message r1.2
       let r3 := _fetch_next_message r2.2
       r1.1 = some (po "stdout" "ab")
       ∧ r2.1 = some (po "stderr" "x")
       ∧ r3.1 = some (po "stdout" "c")
       ∧ r3.2 = some []) := by
  refine ⟨?_, ?_, ?_⟩
  · intro m rest h
    simp [_fetch_next_message, h, coalesceOutput_eq]
  · intro m rest h
    simp [_fetch_next_message, h]
  · decide

/-- Witness for C1 at concrete inputs: both hypothetical branches of
the theorem are applied to explicit one-element queues. -/
theorem C1_fetch_coalesces_output_witness :
    _fetch_next_message (some [po "stdout" "a"]) = (some (po "stdout" "a"), some [])
    ∧ _fetch_next_message (some [{ message_type := "ToplevelResult" }]) =
        (some { message_type := "ToplevelResult" }, some []) := by
  constructor
  · have h := C1_fetch_coalesces_output.1 (po "stdout" "a") [] (by decide)
    simpa using h
  · have h := C1_fetch_coalesces_output.2.1 { message_type := "ToplevelResult" } [] (by decide)
    simpa using h

/-- C9 (implicit): `fetch_next_message` on a proxy whose message queue
does not exist (`_message_queue = None`: never started, or killed and
not restarted) returns `None` and leaves the proxy unchanged, instead
of raising. -/
theorem C9_fetch_without_queue (ps : ProxyState)
    (h : ps._message_queue = none) :
    fetch_next_message ps = (none, ps) := by
  cases ps
  simp only at h
  subst h
  simp [fetch_next_message, _fetch_next_message]

/-- Witness for C9: a freshly constructed proxy has no message queue,
and fetching from it returns `None`. -/
theorem C9_fetch_without_queue_witness :
    fetch_next_message (initProxy "/usr/bin/python3" "/home") =
      (none, initProxy "/usr/bin/python3" "/home") :=
  C9_fetch_without_queue (initProxy "/usr/bin/python3" "/home") rfl

theorem kill_current_process_state (ps : ProxyState) :
    (kill_current_process ps).1._state = ps._state := by
  simp only [kill_current_process]
  split
  · split <;> rfl
  · rfl

theorem kill_current_process_executable (ps : ProxyState) :
    (kill_current_process ps).1._executable = ps._executable := by
  simp only [kill_current_process]
  split
  · split <;> rfl
  · rfl

theorem kill_current_process_effects (ps : ProxyState) :
    (kill_current_process ps).2.spawned = []
    ∧ (kill_current_process ps).2.threadsStarted = 0
    ∧ (kill_current_process ps).2.stdinWrites = [] := by
  simp only [kill_current_process]
  split
  · split <;> exact ⟨rfl, rfl, rfl⟩
  · exact ⟨rfl, rfl, rfl⟩

theorem start_new_process_state (osys : Sys) (cmd : Cmd) (ps : ProxyState) :
    (_start_new_process osys cmd ps).2.1._state = ps._state := by
  simp only [_start_new_process]
  split
  · rfl
  · split
    · rfl
    · split <;> rfl

theorem start_new_process_queue (osys : Sys) (cmd : Cmd) (ps : ProxyState) :
    (_start_new_process osys cmd ps).2.1._message_queue = some [] := by
  simp only [_start_new_process]
  split
  · rfl
  · split
    · rfl
    · split <;> rfl

theorem process_starter_sets_state (cmd : Cmd)
    (h : isProcessStarter cmd = true) : isStateSetter cmd = true := by
  cases cmd <;> simp_all [isProcessStarter, isStateSetter]

/-- C2: a `fetch_next_message` call that returns a `ToplevelResult`,
`DebuggerProgress` or `InputRequest` event leaves the state
`waiting_toplevel_command`, `waiting_debug_command` or `waiting_input`
respectively, any other returned event type leaving the state
unchanged; and `send_command` with a `ToplevelCommand`,
`DebuggerCommand` or `InputSubmission` always leaves the state
`running` when it returns. -/
theorem C2_state_machine :
    (∀ (ps : ProxyState) (m : Msg),
      (fetch_next_message ps).1 = some m →
        get_state (fetch_next_message ps).2 =
          (if m.message_type = "ToplevelResult" then some "waiting_toplevel_command"
           else if m.message_type = "DebuggerProgress" then some "waiting_debug_command"
           else if m.message_type = "InputRequest" then some "waiting_input"
           else get_state ps))
    ∧ (∀ (ps : ProxyState), (fetch_next_message ps).1 = none →
        get_state (fetch_next_message ps).2 = get_state ps)
    ∧ (∀ (osys : Sys) (cmd : Cmd) (ps : ProxyState), isStateSetter cmd = true →
        get_state (send_command osys cmd ps).2.1 = some "running") := by
  refine ⟨?_, ?_, ?_⟩
  · intro ps m h
    simp only [fetch_next_message, get_state] at h ⊢
    rw [h]
  · intro ps h
    simp only [fetch_next_message, get_state] at h ⊢
    rw [h]
  · intro osys cmd ps h
    simp only [send_command, get_state, h, if_pos]
    by_cases hstart : isProcessStarter cmd = true
    · simp only [hstart, if_pos]
      have h1 := start_new_process_state osys cmd
        (kill_current_process { ps with _state := some "running" }).1
      have h2 := kill_current_process_state { ps with _state := some "running" }
      split
      · simpa [h2] using h1
      · split <;> simpa [h2] using h1
    · simp only [hstart]
      split
      · rfl
      · split <;> rfl

/-- Witness for C2: on a proxy whose queue holds one `ToplevelResult`
event, fetching moves the state to `waiting_toplevel_command`, and
sending an `InputSubmission` moves it to `running`. -/
theorem C2_state_machine_witness :
    get_state (fetch_next_message
      { initProxy "py" "/" with
          _message_queue := some [{ message_type := "ToplevelResult" }] }).2 =
        some "waiting_toplevel_command"
    ∧ get_state (send_command
        { pathExists := fun _ => true, environ := [], launcherPath := "L",
          handshakeLine := "x", stderrContent := "",
          parse := fun l => .error l, serialize := fun _ => "s" }
        (.inputSubmission "data")
        { initProxy "py" "/" with _proc := some { alive := true } }).2.1 =
        some "running" := by
  constructor
  · have h := C2_state_machine.1
      { initProxy "py" "/" with
          _message_queue := some [{ message_type := "ToplevelResult" }] }
      { message_type := "ToplevelResult" } (by decide)
    simpa using h
  · exact C2_state_machine.2.2
      { pathExists := fun _ => true, environ := [], launcherPath := "L",
        handshakeLine := "x", stderrContent := "",
        parse := fun l => .error l, serialize := fun _ => "s" }
      (.inputSubmission "data")
      { initProxy "py" "/" with _proc := some { alive := true } } rfl

/-- The concrete system used to exercise C3: no path exists, so any
attempt to start a process hits the missing-interpreter check. -/
def c3Sys : Sys :=
  { pathExists := fun _ => false, environ := [], launcherPath := "launcher",
    handshakeLine := "", stderrContent := "",
    parse := fun l => .error l, serialize := fun _ => "cmd" }

/-- The concrete proxy used to exercise C3: waiting at the toplevel
prompt, configured with a non-existent interpreter, no process. -/
def c3Proxy : ProxyState :=
  { _executable := "/no/such/python", cwd := "/home",
    _state := some "waiting_toplevel_command" }

/-- Counterexample to C3 as stated: with a non-existent interpreter
path, `send_command` with a Run `ToplevelCommand` does raise
`UserError` ("interpreter not found"), but `get_state()` is NOT
unaffected — it has changed from `waiting_toplevel_command` to
`running`, because `send_command` sets the state to `running` before
the existence check. -/
theorem C3_counterexample :
    (send_command c3Sys (.toplevel "Run") c3Proxy).1 =
      .error (.userError
        "Interpreter (/no/such/python) not found. Please recheck corresponding option!")
    ∧ get_state (send_command c3Sys (.toplevel "Run") c3Proxy).2.1 ≠ get_state c3Proxy := by
  exact ⟨rfl, by decide⟩

/-- C3 (amended): when the configured interpreter executable path does
not exist, `send_command` with a Run/Debug/Reset `ToplevelCommand`
raises the interpreter-not-found `UserError` before any child process
is spawned, spawns nothing, starts no listener threads and leaves no
process handle behind — but `get_state()` is affected: it returns
`running` afterwards, because the state is set to `running` before the
existence check. -/
theorem C3_interpreter_not_found (osys : Sys) (cmd : Cmd) (ps : ProxyState)
    (hcmd : isProcessStarter cmd = true)
    (hexe : osys.pathExists ps._executable = false)
    (hproc : ps._proc = none ∨ ∃ p, ps._proc = some p ∧ p.alive = true) :
    (send_command osys cmd ps).1 =
      .error (.userError ("Interpreter (" ++ ps._executable
        ++ ") not found. Please recheck corresponding option!"))
    ∧ (send_command osys cmd ps).2.2.spawned = []
    ∧ (send_command osys cmd ps).2.2.threadsStarted = 0
    ∧ (send_command osys cmd ps).2.1._proc = none
    ∧ get_state (send_command osys cmd ps).2.1 = some "running" := by
  have hset := process_starter_sets_state cmd hcmd
  rcases hproc with h | ⟨p, h, halive⟩
  · simp [send_command, hset, hcmd, kill_current_process, h, _start_new_process,
      hexe, mergeEffects, get_state]
  · simp [send_command, hset, hcmd, kill_current_process, h, halive,
      _start_new_process, hexe, mergeEffects, get_state]

/-- Witness for C3 at the concrete failing input. -/
theorem C3_interpreter_not_found_witness :
    (send_command c3Sys (.toplevel "Run") c3Proxy).1 =
      .error (.userError ("Interpreter (" ++ c3Proxy._executable
        ++ ") not found. Please recheck corresponding option!"))
    ∧ (send_command c3Sys (.toplevel "Run") c3Proxy).2.2.spawned = []
    ∧ (send_command c3Sys (.toplevel "Run") c3Proxy).2.2.threadsStarted = 0
    ∧ (send_command c3Sys (.toplevel "Run") c3Proxy).2.1._proc = none
    ∧ get_state (send_command c3Sys (.toplevel "Run") c3Proxy).2.1 = some "running" :=
  C3_interpreter_not_found c3Sys (.toplevel "Run") c3Proxy (by decide) rfl (Or.inl rfl)

/-- C7: at process start exactly one handshake line is read from the
child's stdout; on end-of-stream the start fails with the backend
startup error carrying the available stderr content and no listener
threads are started (and no event is emitted); otherwise the decoded
record's `path` field becomes the value of `get_sys_path()`, a
`BackendReady` event carrying the record is emitted, and the two
listener threads are started.  `get_sys_path()` of a fresh proxy is
empty. -/
theorem C7_startup_handshake (osys : Sys) (cmd : Cmd) (ps : ProxyState)
    (hexe : osys.pathExists ps._executable = true) :
    (osys.handshakeLine = "" →
      (_start_new_process osys cmd ps).1 =
        .error (.startupError ("Error starting backend process: " ++ osys.stderrContent))
      ∧ (_start_new_process osys cmd ps).2.2.threadsStarted = 0
      ∧ (_start_new_process osys cmd ps).2.2.emitted = [])
    ∧ (∀ m : Msg, osys.handshakeLine ≠ "" → osys.parse osys.handshakeLine = .ok m →
      (_start_new_process osys cmd ps).1 = .ok ()
      ∧ get_sys_path (_start_new_process osys cmd ps).2.1 = m.path
      ∧ (_start_new_process osys cmd ps).2.2.emitted = [("BackendReady", m)]
      ∧ (_start_new_process osys cmd ps).2.2.threadsStarted = 2)
    ∧ (∀ e c, get_sys_path (initProxy e c) = []) := by
  refine ⟨?_, ?_, fun e c => rfl⟩
  · intro heof
    simp [_start_new_process, hexe, heof]
  · intro m hne hparse
    simp [_start_new_process, hexe, hne, hparse, get_sys_path]

/-- Witness for C7: a concrete system whose child answers the
handshake with a parsable `BackendReady` line listing path entries,
and a concrete system whose child closes stdout immediately. -/
theorem C7_startup_handshake_witness :
    (_start_new_process
        { pathExists := fun _ => true, environ := [], launcherPath := "L",
          handshakeLine := "ready", stderrContent := "",
          parse := fun _ => .ok { message_type := "BackendReady", path := ["/lib"] },
          serialize := fun _ => "s" }
        (.toplevel "Run") (initProxy "py" "/")).1 = .ok ()
    ∧ get_sys_path (_start_new_process
        { pathExists := fun _ => true, environ := [], launcherPath := "L",
          handshakeLine := "ready", stderrContent := "",
          parse := fun _ => .ok { message_type := "BackendReady", path := ["/lib"] },
          serialize := fun _ => "s" }
        (.toplevel "Run") (initProxy "py" "/")).2.1 = ["/lib"]
    ∧ (_start_new_process
        { pathExists := fun _ => true, environ := [], launcherPath := "L",
          handshakeLine := "", stderrContent := "boom",
          parse := fun l => .error l, serialize := fun _ => "s" }
        (.toplevel "Run") (initProxy "py" "/")).1 =
      .error (.startupError "Error starting backend process: boom") := by
  refine ⟨?_, ?_, ?_⟩
  · exact (C7_startup_handshake
      { pathExists := fun _ => true, environ := [], launcherPath := "L",
        handshakeLine := "ready", stderrContent := "",
        parse := fun _ => .ok { message_type := "BackendReady", path := ["/lib"] },
        serialize := fun _ => "s" }
      (.toplevel "Run") (initProxy "py" "/") rfl).2.1
      { message_type := "BackendReady", path := ["/lib"] } (by decide) rfl |>.1
  · exact (C7_startup_handshake
      { pathExists := fun _ => true, environ := [], launcherPath := "L",
        handshakeLine := "ready", stderrContent := "",
        parse := fun _ => .ok { message_type := "BackendReady", path := ["/lib"] },
        serialize := fun _ => "s" }
      (.toplevel "Run") (initProxy "py" "/") rfl).2.1
      { message_type := "BackendReady", path := ["/lib"] } (by decide) rfl |>.2.1
  · exact ((C7_startup_handshake
      { pathExists := fun _ => true, environ := [], launcherPath := "L",
        handshakeLine := "", stderrContent := "boom",
        parse := fun l => .error l, serialize := fun _ => "s" }
      (.toplevel "Run") (initProxy "py" "/") rfl).1 rfl).1

/-- C8: killing a live process discards the message queue and the
handle, killing an already-finished process is a no-op (not an error),
and starting a new process installs a fresh empty queue — so after a
kill immediately followed by a start, the queue is empty and no event
from the killed process can be delivered from it. -/
theorem C8_kill_then_start_fresh_queue :
    (∀ (ps : ProxyState) (p : Proc), ps._proc = some p → p.alive = true →
      (kill_current_process ps).1._message_queue = none
      ∧ (kill_current_process ps).1._proc = none)
    ∧ (∀ (ps : ProxyState) (p : Proc), ps._proc = some p → p.alive = false →
      kill_current_process ps = (ps, {}))
    ∧ (∀ (osys : Sys) (cmd : Cmd) (ps : ProxyState),
        (_start_new_process osys cmd (kill_current_process ps).1).2.1._message_queue
          = some [])
    ∧ (∀ (osys : Sys) (cmd : Cmd) (ps : ProxyState), isProcessStarter cmd = true →
        (send_command osys cmd ps).2.1._message_queue = some []) := by
  refine ⟨?_, ?_, ?_, ?_⟩
  · intro ps p hp halive
    simp [kill_current_process, hp, halive]
  · intro ps p hp hdead
    simp [kill_current_process, hp, hdead]
  · intro osys cmd ps
    exact start_new_process_queue osys cmd (kill_current_process ps).1
  · intro osys cmd ps h
    simp only [send_command, h, if_pos]
    have h1 := start_new_process_queue osys cmd
      (kill_current_process
        (if isStateSetter cmd then { ps with _state := some "running" } else ps)).1
    split
    · simpa using h1
    · split <;> simpa using h1

/-- Witness for C8 at concrete inputs: a live process is killed (queue
gone), a dead one is left alone, and a kill-then-start sequence ends
with a fresh empty queue. -/
theorem C8_kill_then_start_fresh_queue_witness :
    (kill_current_process
        { initProxy "py" "/" with
            _proc := some { alive := true },
            _message_queue := some [po "stdout" "old"] }).1._message_queue = none
    ∧ kill_current_process
        { initProxy "py" "/" with _proc := some { alive := false } } =
        ({ initProxy "py" "/" with _proc := some { alive := false } }, {})
    ∧ (send_command
        { pathExists := fun _ => true, environ := [], launcherPath := "L",
          handshakeLine := "x", stderrContent := "",
          parse := fun _ => .ok { message_type := "BackendReady" },
          serialize := fun _ => "s" }
        (.toplevel "Run")
        { initProxy "py" "/" with
            _proc := some { alive := true },
            _message_queue := some [po "stdout" "old"] }).2.1._message_queue
      = some [] := by
  refine ⟨?_, ?_, ?_⟩
  · exact (C8_kill_then_start_fresh_queue.1
      { initProxy "py" "/" with
          _proc := some { alive := true },
          _message_queue := some [po "stdout" "old"] }
      { alive := true } rfl rfl).1
  · exact C8_kill_then_start_fresh_queue.2.1
      { initProxy "py" "/" with _proc := some { alive := false } }
      { alive := false } rfl rfl
  · exact C8_kill_then_start_fresh_queue.2.2.2
      { pathExists := fun _ => true, environ := [], launcherPath := "L",
        handshakeLine := "x", stderrContent := "",
        parse := fun _ => .ok { message_type := "BackendReady" },
        serialize := fun _ => "s" }
      (.toplevel "Run")
      { initProxy "py" "/" with
          _proc := some { alive := true },
          _message_queue := some [po "stdout" "old"] } rfl

/-- C10 (implicit): sending an `InlineCommand` (such as the periodic
`tkupdate` tick) through `send_command` leaves the whole proxy state —
execution state, process handle, message queue — unchanged, kills no
process, spawns no process and starts no threads; its only effect is
writing the serialized command line to the existing child's stdin.
Consequently one tick of `_advance_background_tk_mainloop` never
changes the proxy state. -/
theorem C10_inline_command_frame (osys : Sys) (ps : ProxyState) (c : String) (p : Proc)
    (hproc : ps._proc = some p) :
    send_command osys (.inline c) ps =
      (.ok (), ps, { stdinWrites := [osys.serialize (.inline c) ++ "\n"] })
    ∧ (_advance_background_tk_mainloop osys ps).2.1 = ps
    ∧ (_advance_background_tk_mainloop osys ps).2.2.spawned = []
    ∧ (_advance_background_tk_mainloop osys ps).2.2.kills = 0 := by
  have hsend : send_command osys (.inline c) ps =
      (.ok (), ps, { stdinWrites := [osys.serialize (.inline c) ++ "\n"] }) := by
    simp [send_command, isStateSetter, isProcessStarter, hproc]
  have htk : ∀ d : String, send_command osys (.inline d) ps =
      (.ok (), ps, { stdinWrites := [osys.serialize (.inline d) ++ "\n"] }) := by
    intro d
    simp [send_command, isStateSetter, isProcessStarter, hproc]
  refine ⟨hsend, ?_, ?_, ?_⟩ <;>
    · simp only [_advance_background_tk_mainloop]
      split
      · simp [htk "tkupdate"]
      · rfl

/-- Witness for C10: the tick on a concrete waiting proxy with a live
process leaves the proxy unchanged and only writes one line. -/
theorem C10_inline_command_frame_witness :
    send_command
        { pathExists := fun _ => true, environ := [], launcherPath := "L",
          handshakeLine := "x", stderrContent := "",
          parse := fun l => .error l, serialize := fun _ => "ser" }
        (.inline "tkupdate")
        { initProxy "py" "/" with
            _proc := some { alive := true },
            _state := some "waiting_toplevel_command" } =
      (.ok (),
        { initProxy "py" "/" with
            _proc := some { alive := true },
            _state := some "waiting_toplevel_command" },
        { stdinWrites := ["ser\n"] }) := by
  have h := (C10_inline_command_frame
    { pathExists := fun _ => true, environ := [], launcherPath := "L",
      handshakeLine := "x", stderrContent := "",
      parse := fun l => .error l, serialize := fun _ => "ser" }
    { initProxy "py" "/" with
        _proc := some { alive := true },
        _state := some "waiting_toplevel_command" }
    "tkupdate" { alive := true } rfl).1
  simpa using h

theorem envLookup_nil (k : String) : envLookup [] k = none := rfl

theorem envLookup_cons (a : String × String) (l : List (String × String)) (k : String) :
    envLookup (a :: l) k = if a.1 == k then some a.2 else envLookup l k := by
  by_cases h : (a.1 == k) = true
  · simp only [envLookup]
    rw [List.find?_cons_of_pos (p := fun q : String × String => q.1 == k) _ h]
    simp [h]
  · simp only [envLookup]
    rw [List.find?_cons_of_neg (p := fun q : String × String => q.1 == k) _ h]
    simp [h]

theorem envLookup_map_set_self (env : List (String × String)) (k v : String)
    (hany : env.any (fun p => p.1 == k) = true) :
    envLookup (env.map (fun p => if p.1 == k then (k, v) else p)) k = some v := by
  induction env with
  | nil => simp at hany
  | cons a rest ih =>
    simp only [List.any_cons, Bool.or_eq_true] at hany
    simp only [List.map_cons, envLookup_cons]
    by_cases h : (a.1 == k) = true
    · simp [h]
    · simp only [h, Bool.false_eq_true, if_false]
      rcases hany with h' | h'
      · exact absurd h' (by simp [h])
      · simpa [h] using ih h'

theorem envLookup_map_set_ne (env : List (String × String)) (k v k' : String)
    (hk : k' ≠ k) :
    envLookup (env.map (fun p => if p.1 == k then (k, v) else p)) k' =
      envLookup env k' := by
  induction env with
  | nil => rfl
  | cons a rest ih =>
    simp only [List.map_cons, envLookup_cons, ih]
    by_cases h : (a.1 == k) = true
    · have ha : a.1 = k := by simpa using h
      have h1 : ((k, v).1 == k') = false := by
        simpa using fun hkk : k = k' => hk hkk.symm
      have h2 : (a.1 == k') = false := by
        rw [ha]
        simpa using fun hkk : k = k' => hk hkk.symm
      simp [h, h1, h2]
    · simp [h]

theorem envLookup_eq_none_of_any_false (env : List (String × String)) (k : String)
    (hany : env.any (fun p => p.1 == k) = false) :
    envLookup env k = none := by
  induction env with
  | nil => rfl
  | cons a rest ih =>
    simp only [List.any_cons, Bool.or_eq_false_iff] at hany
    rw [envLookup_cons, hany.1]
    simpa using ih hany.2

theorem envLookup_append (l1 l2 : List (String × String)) (k : String) :
    envLookup (l1 ++ l2) k = (envLookup l1 k).or (envLookup l2 k) := by
  induction l1 with
  | nil => simp [envLookup_nil]
  | cons a rest ih =>
    rw [List.cons_append, envLookup_cons, envLookup_cons, ih]
    by_cases h : (a.1 == k) = true
    · simp [h]
    · simp [h]

theorem envLookup_envSet (env : List (String × String)) (k v k' : String) :
    envLookup (envSet env k v) k' = if k' = k then some v else envLookup env k' := by
  by_cases hany : env.any (fun p => p.1 == k) = true
  · simp only [envSet, hany, if_pos]
    by_cases hk : k' = k
    · subst hk
      rw [envLookup_map_set_self env k' v hany, if_pos rfl]
    · rw [envLookup_map_set_ne env k v k' hk, if_neg hk]
  · simp only [envSet, hany, Bool.false_eq_true, if_false]
    rw [envLookup_append]
    by_cases hk : k' = k
    · subst hk
      rw [envLookup_eq_none_of_any_false env k' (Bool.eq_false_iff.mpr hany)]
      simp [envLookup_cons]
    · have h1 : ((k, v).1 == k') = false := by
        simpa using fun hkk : k = k' => hk hkk.symm
      simp [envLookup_cons, h1, envLookup_nil, hk]

theorem envLookup_envUpdate (ov : List (String × String)) :
    ∀ (env : List (String × String)) (k : String),
    envLookup (envUpdate env ov) k =
      match ov.reverse.find? (fun p => p.1 == k) with
      | some p => some p.2
      | none => envLookup env k := by
  induction ov with
  | nil => intro env k; simp [envUpdate]
  | cons kv rest ih =>
    intro env k
    have hstep : envUpdate env (kv :: rest) = envUpdate (envSet env kv.1 kv.2) rest := by
      simp [envUpdate]
    rw [hstep, ih]
    rw [List.reverse_cons, List.find?_append]
    cases hfr : rest.reverse.find? fun p => p.1 == k with
    | some q => simp [Option.or]
    | none =>
      by_cases hk : k = kv.1
      · subst hk
        have hs : ([kv].find? fun p => p.1 == kv.1) = some kv :=
          List.find?_cons_of_pos _ (by simp)
        rw [envLookup_envSet]
        simp [Option.or, hs]
      · have hne : (kv.1 == k) = false := by
          simpa using fun hkk : kv.1 = k => hk hkk.symm
        have hs : ([kv].find? fun p => p.1 == k) = none := by
          rw [List.find?_cons_of_neg _ (by simp [hne])]
          rfl
        rw [envLookup_envSet]
        simp [Option.or, hs, hk]

theorem envLookup_filter (q : String → Bool) (env : List (String × String)) (k : String) :
    envLookup (env.filter (fun p => q p.1)) k =
      if q k then envLookup env k else none := by
  induction env with
  | nil => simp [envLookup_nil]
  | cons a rest ih =>
    simp only [List.filter_cons]
    by_cases hqa : q a.1 = true
    · simp only [hqa, if_true, envLookup_cons]
      by_cases hak : (a.1 == k) = true
      · have hk : a.1 = k := by simpa using hak
        subst hk
        simp [hqa, envLookup_cons]
      · simp [hak, ih, envLookup_cons]
    · have hqa2 : q a.1 = false := Bool.eq_false_iff.mpr hqa
      simp only [hqa2, Bool.false_eq_true, if_false, ih, envLookup_cons]
      by_cases hak : (a.1 == k) = true
      · have hk : a.1 = k := by simpa using hak
        subst hk
        simp [hqa2]
      · simp [hak]

/-- The process environment exactly as claim C5 words it: the host
environment with the variables whose name, case-insensitively,
contains the interpreter-identity marker `"python"` dropped EXCEPT
those on an allow-list, then the fixed-encoding and unbuffered-I/O
variables set, then per-command overrides merged in last.  (Stated
from the claim, not from the source, to be compared against
`buildBaseEnv`.) -/
def claimedEnvC5 (allowList : List String)
    (environ overrides : List (String × String)) : List (String × String) :=
  envUpdate
    (envSet (envSet
        (environ.filter (fun p =>
          !(strContainsSub (strToLower p.1) "python") || allowList.contains p.1))
        "PYTHONIOENCODING" "ASCII")
      "PYTHONUNBUFFERED" "1")
    overrides

/-- Counterexample to C5 as stated: no choice of allow-list makes the
claimed environment match the code.  The code additionally drops
`TK_LIBRARY` (and `TCL_LIBRARY`) through an explicit deny-list even
though their names do not contain the marker `"python"`, so for the
host environment `{TK_LIBRARY: "x"}` the claimed environment keeps the
variable while `_start_new_process` drops it. -/
theorem C5_counterexample :
    ¬ ∃ allowList : List String,
        claimedEnvC5 allowList [("TK_LIBRARY", "x")] [] =
          buildBaseEnv [("TK_LIBRARY", "x")] := by
  rintro ⟨al, h⟩
  have hmark : strContainsSub (strToLower "TK_LIBRARY") "python" = false := by decide
  have hfilter : [("TK_LIBRARY", "x")].filter (fun p : String × String =>
      !(strContainsSub (strToLower p.1) "python") || al.contains p.1) =
      [("TK_LIBRARY", "x")] := by
    simp [List.filter, hmark]
  have hlen := congrArg List.length h
  rw [claimedEnvC5, hfilter] at hlen
  have h1 : envUpdate (envSet (envSet [("TK_LIBRARY", "x")]
      "PYTHONIOENCODING" "ASCII") "PYTHONUNBUFFERED" "1") [] =
      [("TK_LIBRARY", "x"), ("PYTHONIOENCODING", "ASCII"), ("PYTHONUNBUFFERED", "1")] := by
    decide
  have h2 : buildBaseEnv [("TK_LIBRARY", "x")] =
      [("PYTHONIOENCODING", "ASCII"), ("PYTHONUNBUFFERED", "1")] := by
    decide
  rw [h1, h2] at hlen
  simp at hlen

/-- C5 (amended): the environment passed to every spawned child is the
host environment with exactly these changes: every variable whose
name, case-insensitively, contains `"python"` is dropped, the
variables on the explicit deny-list `TK_LIBRARY`, `TCL_LIBRARY` are
also dropped (there is no allow-list of exceptions), the fixed
variables `PYTHONIOENCODING = "ASCII"` and `PYTHONUNBUFFERED = "1"`
are set, and any per-command environment overrides are merged in last.
Stated extensionally: whenever `_start_new_process` records a spawn,
every name looks up in the child environment to the last per-command
override for it if any, else to the fixed values for the two fixed
variables, else to the host value exactly when the name survives the
deny rule. -/
theorem start_new_process_spawned (osys : Sys) (cmd : Cmd) (ps : ProxyState)
    (hexe : osys.pathExists ps._executable = true) :
    (_start_new_process osys cmd ps).2.2.spawned =
      [{ cmdLine := [ps._executable, "-u", "-B", osys.launcherPath]
          ++ (match cmd with
              | .toplevel _ (some fn) args _ => fn :: args.getD []
              | _ => []),
         env := match cmdEnvironment cmd with
          | some e => envUpdate (buildBaseEnv osys.environ) e
          | none => buildBaseEnv osys.environ,
         cwd := ps.cwd }] := by
  by_cases heof : osys.handshakeLine = ""
  · simp [_start_new_process, hexe, heof]
  · cases hp : osys.parse osys.handshakeLine with
    | error e => simp [_start_new_process, hexe, heof, hp]
    | ok m => simp [_start_new_process, hexe, heof, hp]

theorem C5_spawn_environment (osys : Sys) (cmd : Cmd) (ps : ProxyState)
    (hexe : osys.pathExists ps._executable = true) :
    ∃ rec : SpawnRecord,
      (_start_new_process osys cmd ps).2.2.spawned = [rec]
      ∧ ∀ name : String,
        envLookup rec.env name =
          match ((cmdEnvironment cmd).getD []).reverse.find? (fun p => p.1 == name) with
          | some p => some p.2
          | none =>
            if name = "PYTHONUNBUFFERED" then some "1"
            else if name = "PYTHONIOENCODING" then some "ASCII"
            else if keepEnvVar name then envLookup osys.environ name
            else none := by
  have hmain : ∀ name : String,
      envLookup (match cmdEnvironment cmd with
        | some e => envUpdate (buildBaseEnv osys.environ) e
        | none => buildBaseEnv osys.environ) name =
        match ((cmdEnvironment cmd).getD []).reverse.find? (fun p => p.1 == name) with
        | some p => some p.2
        | none =>
          if name = "PYTHONUNBUFFERED" then some "1"
          else if name = "PYTHONIOENCODING" then some "ASCII"
          else if keepEnvVar name then envLookup osys.environ name
          else none := by
    intro name
    have hbase : envLookup (buildBaseEnv osys.environ) name =
        (if name = "PYTHONUNBUFFERED" then some "1"
         else if name = "PYTHONIOENCODING" then some "ASCII"
         else if keepEnvVar name then envLookup osys.environ name
         else none) := by
      simp only [buildBaseEnv]
      rw [envLookup_envSet, envLookup_envSet, envLookup_filter]
    cases henv : cmdEnvironment cmd with
    | none => simpa [henv] using hbase
    | some e =>
      simp only [henv, Option.getD]
      rw [envLookup_envUpdate]
      cases e.reverse.find? fun p => p.1 == name with
      | none => simpa using hbase
      | some q => rfl
  exact ⟨_, start_new_process_spawned osys cmd ps hexe, hmain⟩

/-- Witness for C5: with host environment `{HOME: "/root", PYTHONPATH:
"/p", TK_LIBRARY: "x"}` and a per-command override of `HOME`, the
spawned environment keeps `HOME` overridden, drops `PYTHONPATH` and
`TK_LIBRARY`, and carries the two fixed variables. -/
theorem C5_spawn_environment_witness :
    ∃ rec : SpawnRecord,
      (_start_new_process
        { pathExists := fun _ => true,
          environ := [("HOME", "/root"), ("PYTHONPATH", "/p"), ("TK_LIBRARY", "x")],
          launcherPath := "L", handshakeLine := "x", stderrContent := "",
          parse := fun _ => .ok { message_type := "BackendReady" },
          serialize := fun _ => "s" }
        (.toplevel "Run" none none (some [("HOME", "/over")]))
        (initProxy "py" "/")).2.2.spawned = [rec]
      ∧ ∀ name : String,
        envLookup rec.env name =
          match ((cmdEnvironment
              (.toplevel "Run" none none (some [("HOME", "/over")]))).getD
                []).reverse.find? (fun p => p.1 == name) with
          | some p => some p.2
          | none =>
            if name = "PYTHONUNBUFFERED" then some "1"
            else if name = "PYTHONIOENCODING" then some "ASCII"
            else if keepEnvVar name then
              envLookup [("HOME", "/root"), ("PYTHONPATH", "/p"), ("TK_LIBRARY", "x")] name
            else none :=
  C5_spawn_environment
    { pathExists := fun _ => true,
      environ := [("HOME", "/root"), ("PYTHONPATH", "/p"), ("TK_LIBRARY", "x")],
      launcherPath := "L", handshakeLine := "x", stderrContent := "",
      parse := fun _ => .ok { message_type := "BackendReady" },
      serialize := fun _ => "s" }
    (.toplevel "Run" none none (some [("HOME", "/over")]))
    (initProxy "py" "/") rfl

/-- Split a character list at every occurrence of `sep`. -/
def splitOnChar (sep : Char) : List Char → List (List Char)
  | [] => [[]]
  | x :: xs =>
    match splitOnChar sep xs with
    | [] => [[]]
    | w :: ws => if x == sep then [] :: w :: ws else (x :: w) :: ws

/-- Modelled from the spec: `thonny.common.parse_message`, the Message
Codec's decode (its source file is not part of this repository).  The
spec requires only that decode turns one line into a tagged record and
fails with a `MalformedMessage` error when the line is not valid
framed data.  This concrete codec accepts frames of the shape
`message_type:stream_name:data` and rejects everything else. -/
def parseMessageModel (line : String) : Except String Msg :=
  match splitOnChar ':' line.toList with
  | [t, s, d] =>
    .ok { message_type := String.mk t, stream_name := String.mk s,
          data := String.mk d }
  | _ => .error ("MalformedMessage: " ++ line)

/-- `CPythonProxy._listen_stdout`, one pass over the lines the child
will ever produce (`""` models the empty read at end-of-stream): stop
normally on EOF; otherwise decode the line — an undecodable line makes
`parse_message` raise, which propagates and terminates the listener
thread (third component `some error`) — update `cwd` when the message
carries one, and append the message to the queue. -/
def _listen_stdout (parse : String → Except String Msg) :
    List String → String → List Msg → String × List Msg × Option String
  | [], cwd, queue => (cwd, queue, none)
  | data :: rest, cwd, queue =>
    if data = "" then
      (cwd, queue, none)
    else
      match parse data with
      | .error e => (cwd, queue, some e)
      | .ok msg =>
        let cwd2 := match msg.cwd with | some c => c | none => cwd
        _listen_stdout parse rest cwd2 (queue ++ [msg])

theorem listen_stdout_ok_run (parse : String → Except String Msg)
    (good : List String)
    (hgood : ∀ l ∈ good, l ≠ "" ∧ ∃ m, parse l = .ok m) :
    ∀ (suffix : List String) (cwd : String) (queue : List Msg), ∃ cwd2,
      _listen_stdout parse (good ++ suffix) cwd queue =
        _listen_stdout parse suffix cwd2
          (queue ++ good.filterMap (fun l => (parse l).toOption)) := by
  induction good with
  | nil =>
    intro suffix cwd queue
    exact ⟨cwd, by simp [List.filterMap]⟩
  | cons l ls ih =>
    intro suffix cwd queue
    obtain ⟨hne, m, hm⟩ := hgood l (List.mem_cons_self l ls)
    obtain ⟨cwd2, h2⟩ :=
      ih (fun x hx => hgood x (List.mem_cons_of_mem l hx)) suffix
        (match m.cwd with | some c => c | none => cwd) (queue ++ [m])
    refine ⟨cwd2, ?_⟩
    rw [List.cons_append, _listen_stdout]
    simp only [hne, if_neg, hm]
    rw [h2]
    simp [List.filterMap_cons, hm, Except.toOption]

/-- Counterexample to C4 as stated: the listener loop has no exception
handling around `parse_message`, so on the line sequence
`["bad", "ProgramOutput:stdout:hi", ""]` the undecodable first line
terminates the loop with the decode error and the subsequent valid
line is never enqueued — fetching from the resulting queue yields
nothing. -/
theorem C4_counterexample :
    _listen_stdout parseMessageModel ["bad", "ProgramOutput:stdout:hi", ""] "/" [] =
      ("/", [], some "MalformedMessage: bad")
    ∧ _fetch_next_message
        (some (_listen_stdout parseMessageModel
          ["bad", "ProgramOutput:stdout:hi", ""] "/" []).2.1) = (none, some []) := by
  constructor
  · rfl
  · rfl

/-- C4 (amended): the listener enqueues decoded lines in their
original order only up to the first line that fails to decode (or up
to end-of-stream): a decode failure propagates out of the loop and
terminates the listener with that error, so the valid lines before the
malformed one are enqueued in order and no line after it is processed;
with no malformed line, all valid lines are enqueued in order and the
loop ends normally at end-of-stream. -/
theorem C4_malformed_line_kills_listener (parse : String → Except String Msg)
    (good : List String) (bad : String) (rest : List String)
    (cwd : String) (queue : List Msg) (e : String)
    (hgood : ∀ l ∈ good, l ≠ "" ∧ ∃ m, parse l = .ok m)
    (hbadne : bad ≠ "") (hbad : parse bad = .error e) :
    ((_listen_stdout parse (good ++ bad :: rest) cwd queue).2.2 = some e
     ∧ (_listen_stdout parse (good ++ bad :: rest) cwd queue).2.1 =
         queue ++ good.filterMap (fun l => (parse l).toOption))
    ∧ ((_listen_stdout parse (good ++ [""]) cwd queue).2.2 = none
       ∧ (_listen_stdout parse (good ++ [""]) cwd queue).2.1 =
         queue ++ good.filterMap (fun l => (parse l).toOption)) := by
  constructor
  · obtain ⟨cwd2, h2⟩ := listen_stdout_ok_run parse good hgood (bad :: rest) cwd queue
    rw [h2, _listen_stdout]
    simp [hbadne, hbad]
  · obtain ⟨cwd2, h2⟩ := listen_stdout_ok_run parse good hgood [""] cwd queue
    rw [h2, _listen_stdout]
    simp

/-- Witness for C4 at a concrete input: one valid line, then a
malformed line, then another valid line. -/
theorem C4_malformed_line_kills_listener_witness :
    ((_listen_stdout parseMessageModel
        (["ProgramOutput:stdout:a"] ++ "bad" :: ["ProgramOutput:stdout:c"]) "/" []).2.2 =
      some "MalformedMessage: bad"
     ∧ (_listen_stdout parseMessageModel
        (["ProgramOutput:stdout:a"] ++ "bad" :: ["ProgramOutput:stdout:c"]) "/" []).2.1 =
        [] ++ ["ProgramOutput:stdout:a"].filterMap
          (fun l => (parseMessageModel l).toOption))
    ∧ ((_listen_stdout parseMessageModel
        (["ProgramOutput:stdout:a"] ++ [""]) "/" []).2.2 = none
       ∧ (_listen_stdout parseMessageModel
        (["ProgramOutput:stdout:a"] ++ [""]) "/" []).2.1 =
        [] ++ ["ProgramOutput:stdout:a"].filterMap
          (fun l => (parseMessageModel l).toOption)) :=
  C4_malformed_line_kills_listener parseMessageModel
    ["ProgramOutput:stdout:a"] "bad" ["ProgramOutput:stdout:c"] "/" []
    "MalformedMessage: bad"
    (by
      intro l hl
      simp only [List.mem_singleton] at hl
      subst hl
      exact ⟨by decide, ⟨po "stdout" "a", rfl⟩⟩)
    (by decide) rfl

/-- The single-quote character (written via its code point). -/
def squot : Char := Char.ofNat 39

/-- The double-quote character (written via its code point). -/
def dquot : Char := Char.ofNat 34

/-- The characters `shlex.quote` leaves unquoted: the complement of
CPython's `_find_unsafe` character class, i.e. ASCII word characters
together with `@`, the percent sign, `+`, `=`, `:`, the comma, the
period, the slash and the dash. -/
def shlexSafeChar (c : Char) : Bool :=
  c.isAlphanum || c = '_' || c = '@' || c = '%' || c = '+' || c = '='
    || c = ':' || c = ',' || c = '.' || c = '/' || c = '-'

/-- `s.replace("'", "'\x22'\x22'")` from `shlex.quote`, at character
level: each single quote becomes quote, double-quote, quote,
double-quote, quote. -/
def shlexEscapeQuotes : List Char → List Char
  | [] => []
  | c :: rest =>
    if c = squot then
      [squot, dquot, squot, dquot, squot] ++ shlexEscapeQuotes rest
    else
      c :: shlexEscapeQuotes rest

/-- `shlex.quote`: empty strings become a pair of single quotes,
strings of safe characters pass through, anything else is wrapped in
single quotes with embedded single quotes escaped. -/
def shlexQuote (s : String) : String :=
  if s = "" then String.mk [squot, squot]
  else if s.toList.all shlexSafeChar then s
  else String.mk ([squot] ++ shlexEscapeQuotes s.toList ++ [squot])

/-- The argument tail built by `execute_script`'s loop: one leading
space plus the quoted argument, per argument. -/
def joinArgs : List String → String
  | [] => ""
  | a :: rest => " " ++ shlexQuote a ++ joinArgs rest

/-- `Runner.execute_script`, the command-line synthesis: when a
working directory is requested and differs from the proxy's current
one, the line starts with a `%cd` instruction; then the main
`%<command_name>` instruction names the script path relative to the
target directory (`os.path.relpath`, an opaque path computation passed
in as `relpath`) and appends each argument shell-quoted.  The produced
string is what is submitted to the shell view. -/
def execute_script (relpath : String → String → String)
    (proxy_cwd script_path : String) (args : List String)
    (working_directory : Option String) (command_name : String) : String :=
  let pre : String × String :=
    match working_directory with
    | some wd =>
      if proxy_cwd ≠ wd then ("%cd " ++ shlexQuote wd ++ "\n", wd)
      else ("", proxy_cwd)
    | none => ("", proxy_cwd)
  let rel_filename := relpath script_path pre.2
  let cmd_line := pre.1 ++ "%" ++ command_name ++ " " ++ shlexQuote rel_filename
  let cmd_line := args.foldl (fun acc arg => acc ++ " " ++ shlexQuote arg) cmd_line
  cmd_line ++ "\n"

/-- Tokenizer mode of the shell-style splitter. -/
inductive SplitMode where
  | normal
  | inSingle
  | inDouble
  deriving Repr, DecidableEq

/-- Modelled from the spec: the shell-style argument splitter used by
`thonny.common.parse_shell_command` (its source file is not part of
this repository; the spec calls it "the shell-style parser used by the
command handler").  POSIX rules: unquoted whitespace separates words;
text between single quotes is literal; text between double quotes is
literal up to the closing double quote; an unterminated quote is an
error (`none`). -/
def shellSplitAux : List Char → SplitMode → Option (List Char) →
    List (List Char) → Option (List (List Char))
  | [], .normal, cur, acc =>
    match cur with
    | none => some acc
    | some w => some (acc ++ [w])
  | [], .inSingle, _, _ => none
  | [], .inDouble, _, _ => none
  | c :: rest, .normal, cur, acc =>
    if c = ' ' ∨ c = '\t' ∨ c = '\n' then
      match cur with
      | none => shellSplitAux rest .normal none acc
      | some w => shellSplitAux rest .normal none (acc ++ [w])
    else if c = squot then shellSplitAux rest .inSingle (some (cur.getD [])) acc
    else if c = dquot then shellSplitAux rest .inDouble (some (cur.getD [])) acc
    else shellSplitAux rest .normal (some (cur.getD [] ++ [c])) acc
  | c :: rest, .inSingle, cur, acc =>
    if c = squot then shellSplitAux rest .normal cur acc
    else shellSplitAux rest .inSingle (some (cur.getD [] ++ [c])) acc
  | c :: rest, .inDouble, cur, acc =>
    if c = dquot then shellSplitAux rest .normal cur acc
    else shellSplitAux rest .inDouble (some (cur.getD [] ++ [c])) acc

/-- Split a command line into words by the shell-style rules. -/
def shellSplit (s : String) : Option (List String) :=
  (shellSplitAux s.toList .normal none []).map (fun ws => ws.map String.mk)

theorem strToList_append (s t : String) :
    (s ++ t).toList = s.toList ++ t.toList := by
  cases s
  cases t
  rfl

theorem strMk_toList (s : String) : String.mk s.toList = s := by
  cases s
  rfl

theorem strAppend_empty (s : String) : s ++ "" = s := by
  cases s
  show String.mk _ = _
  simp

theorem shlexSafeChar_props (c : Char) (h : shlexSafeChar c = true) :
    ¬(c = ' ' ∨ c = '\t' ∨ c = '\n') ∧ ¬ c = squot ∧ ¬ c = dquot := by
  refine ⟨?_, ?_, ?_⟩
  · rintro (rfl | rfl | rfl) <;> exact absurd h (by decide)
  · rintro rfl
    exact absurd h (by decide)
  · rintro rfl
    exact absurd h (by decide)

theorem squot_not_ws : ¬(squot = ' ' ∨ squot = '\t' ∨ squot = '\n') := by
  decide

theorem shellSplitAux_nil_normal (cur : Option (List Char)) (acc : List (List Char)) :
    shellSplitAux [] .normal cur acc =
      match cur with
      | none => some acc
      | some w => some (acc ++ [w]) := rfl

theorem shellSplitAux_cons_normal (c : Char) (rest : List Char)
    (cur : Option (List Char)) (acc : List (List Char)) :
    shellSplitAux (c :: rest) .normal cur acc =
      if c = ' ' ∨ c = '\t' ∨ c = '\n' then
        match cur with
        | none => shellSplitAux rest .normal none acc
        | some w => shellSplitAux rest .normal none (acc ++ [w])
      else if c = squot then shellSplitAux rest .inSingle (some (cur.getD [])) acc
      else if c = dquot then shellSplitAux rest .inDouble (some (cur.getD [])) acc
      else shellSplitAux rest .normal (some (cur.getD [] ++ [c])) acc := rfl

theorem shellSplitAux_cons_single (c : Char) (rest : List Char)
    (cur : Option (List Char)) (acc : List (List Char)) :
    shellSplitAux (c :: rest) .inSingle cur acc =
      if c = squot then shellSplitAux rest .normal cur acc
      else shellSplitAux rest .inSingle (some (cur.getD [] ++ [c])) acc := rfl

theorem shellSplitAux_safe_run (l : List Char)
    (h : ∀ c ∈ l, shlexSafeChar c = true) :
    ∀ (rest w : List Char) (acc : List (List Char)),
      shellSplitAux (l ++ rest) .normal (some w) acc =
        shellSplitAux rest .normal (some (w ++ l)) acc := by
  induction l with
  | nil =>
    intro rest w acc
    simp
  | cons c l2 ih =>
    intro rest w acc
    obtain ⟨h1, h2, h3⟩ := shlexSafeChar_props c (h c (by simp))
    rw [List.cons_append, shellSplitAux_cons_normal]
    rw [if_neg h1, if_neg h2, if_neg h3]
    simp only [Option.getD]
    rw [ih (fun x hx => h x (by simp [hx])) rest]
    simp

theorem shellSplitAux_single_run (l : List Char) (h : squot ∉ l) :
    ∀ (rest w : List Char) (acc : List (List Char)),
      shellSplitAux (l ++ rest) .inSingle (some w) acc =
        shellSplitAux rest .inSingle (some (w ++ l)) acc := by
  induction l with
  | nil =>
    intro rest w acc
    simp
  | cons c l2 ih =>
    intro rest w acc
    have hc : ¬ c = squot := fun hcc => h (by simp [hcc])
    rw [List.cons_append, shellSplitAux_cons_single]
    rw [if_neg hc]
    simp only [Option.getD]
    rw [ih (fun hm => h (by simp [hm])) rest]
    simp

theorem shlexEscapeQuotes_id (l : List Char) (h : squot ∉ l) :
    shlexEscapeQuotes l = l := by
  induction l with
  | nil => rfl
  | cons c l2 ih =>
    have hc : ¬ c = squot := fun hcc => h (by simp [hcc])
    simp only [shlexEscapeQuotes]
    rw [if_neg hc, ih (fun hm => h (by simp [hm]))]

theorem shellSplitAux_quote_run (t : String) (h : squot ∉ t.toList) :
    ∀ (rest : List Char) (acc : List (List Char)),
      shellSplitAux ((shlexQuote t).toList ++ rest) .normal none acc =
        shellSplitAux rest .normal (some t.toList) acc := by
  intro rest acc
  by_cases he : t = ""
  · subst he
    show shellSplitAux ([squot, squot] ++ rest) .normal none acc = _
    rw [List.cons_append, List.cons_append, List.nil_append,
      shellSplitAux_cons_normal]
    rw [if_neg squot_not_ws, if_pos rfl, shellSplitAux_cons_single, if_pos rfl]
    rfl
  · by_cases hs : t.toList.all shlexSafeChar = true
    · simp only [shlexQuote, if_neg he, if_pos hs]
      have hall : ∀ x ∈ t.toList, shlexSafeChar x = true :=
        fun x hx => List.all_eq_true.mp hs x hx
      cases hl : t.toList with
      | nil =>
        exact absurd (String.ext (hl.trans rfl)) he
      | cons c l2 =>
        rw [hl] at hall
        obtain ⟨h1, h2, h3⟩ := shlexSafeChar_props c (hall c (by simp))
        rw [List.cons_append, shellSplitAux_cons_normal]
        rw [if_neg h1, if_neg h2, if_neg h3]
        simp only [Option.getD]
        rw [shellSplitAux_safe_run l2 (fun x hx => hall x (by simp [hx])) rest]
        simp
    · simp only [shlexQuote, if_neg he, if_neg hs]
      rw [shlexEscapeQuotes_id t.toList h]
      show shellSplitAux (([squot] ++ t.toList ++ [squot]) ++ rest) .normal none acc = _
      rw [List.append_assoc, List.append_assoc, List.singleton_append,
        shellSplitAux_cons_normal]
      rw [if_neg squot_not_ws, if_pos rfl]
      simp only [Option.getD]
      rw [shellSplitAux_single_run t.toList h ([squot] ++ rest) [] acc]
      rw [List.singleton_append, shellSplitAux_cons_single]
      rw [if_pos rfl]
      simp

theorem shellSplitAux_args_run (args : List String)
    (h : ∀ a ∈ args, squot ∉ a.toList) :
    ∀ (w : List Char) (acc : List (List Char)),
      shellSplitAux ((joinArgs args).toList ++ ['\n']) .normal (some w) acc =
        some (acc ++ [w] ++ args.map String.toList) := by
  induction args with
  | nil =>
    intro w acc
    show shellSplitAux (['\n']) .normal (some w) acc = _
    rw [shellSplitAux_cons_normal, if_pos (Or.inr (Or.inr rfl))]
    show shellSplitAux [] .normal none (acc ++ [w]) = _
    rw [shellSplitAux_nil_normal]
    simp
  | cons a rest2 ih =>
    intro w acc
    have hsp : (" " : String).toList = [' '] := rfl
    have hd : (joinArgs (a :: rest2)).toList ++ ['\n'] =
        ' ' :: ((shlexQuote a).toList ++ ((joinArgs rest2).toList ++ ['\n'])) := by
      simp only [joinArgs]
      rw [strToList_append, strToList_append, hsp]
      simp [List.append_assoc]
    rw [hd, shellSplitAux_cons_normal, if_pos (Or.inl rfl)]
    show shellSplitAux ((shlexQuote a).toList ++ ((joinArgs rest2).toList ++ ['\n']))
        .normal none (acc ++ [w]) = _
    rw [shellSplitAux_quote_run a (h a (by simp))]
    rw [ih (fun x hx => h x (by simp [hx])) a.toList (acc ++ [w])]
    simp

theorem map_mk_toList (l : List String) :
    l.map (fun a => String.mk a.toList) = l := by
  induction l with
  | nil => rfl
  | cons x xs ihx => simp [strMk_toList, ihx]

theorem shellSplit_instruction (name rel : String) (args : List String)
    (_hname_ne : name ≠ "") (hname_safe : name.toList.all shlexSafeChar = true)
    (hrel : squot ∉ rel.toList) (hargs : ∀ a ∈ args, squot ∉ a.toList) :
    shellSplit ("%" ++ name ++ " " ++ shlexQuote rel ++ joinArgs args ++ "\n") =
      some (("%" ++ name) :: rel :: args) := by
  have hsp : (" " : String).toList = [' '] := rfl
  have hnl : ("\n" : String).toList = ['\n'] := rfl
  have hpc : ("%" : String).toList = ['%'] := rfl
  have h0 : ("%" ++ name ++ " " ++ shlexQuote rel ++ joinArgs args ++ "\n").toList =
      '%' :: (name.toList ++
        (' ' :: ((shlexQuote rel).toList ++ ((joinArgs args).toList ++ ['\n'])))) := by
    rw [strToList_append, strToList_append, strToList_append, strToList_append,
      strToList_append, hsp, hnl, hpc]
    simp [List.append_assoc]
  simp only [shellSplit]
  rw [h0]
  have hprops := shlexSafeChar_props '%' (by decide)
  rw [shellSplitAux_cons_normal, if_neg hprops.1, if_neg hprops.2.1,
    if_neg hprops.2.2]
  simp only [Option.getD, List.nil_append]
  rw [shellSplitAux_safe_run name.toList
    (fun x hx => List.all_eq_true.mp hname_safe x hx)
    (' ' :: ((shlexQuote rel).toList ++ ((joinArgs args).toList ++ ['\n'])))
    ['%'] []]
  rw [shellSplitAux_cons_normal, if_pos (Or.inl rfl)]
  show Option.map _ (shellSplitAux ((shlexQuote rel).toList ++
    ((joinArgs args).toList ++ ['\n'])) .normal none [['%'] ++ name.toList]) = _
  rw [shellSplitAux_quote_run rel hrel]
  rw [shellSplitAux_args_run args hargs rel.toList [['%'] ++ name.toList]]
  have hmk : String.mk (['%'] ++ name.toList) = "%" ++ name := by
    rw [← hpc, ← strToList_append, strMk_toList]
  simp only [Option.map, List.map_cons, List.map_map]
  refine congrArg some ?_
  refine List.cons_eq_cons.mpr ⟨hmk, ?_⟩
  refine List.cons_eq_cons.mpr ⟨strMk_toList rel, ?_⟩
  show List.map String.mk (List.map String.toList args) = args
  rw [List.map_map]
  show List.map (fun a => String.mk a.toList) args = args
  exact map_mk_toList args

theorem shellSplit_cd_instruction (wd : String) (hwd : squot ∉ wd.toList) :
    shellSplit ("%cd " ++ shlexQuote wd ++ "\n") = some ["%cd", wd] := by
  have h := shellSplit_instruction "cd" wd [] (by decide) (by decide) hwd
    (by simp)
  have heq : ("%" ++ "cd" ++ " " ++ shlexQuote wd ++ joinArgs [] ++ "\n") =
      ("%cd " ++ shlexQuote wd ++ "\n") := by
    show ("%" ++ "cd" ++ " " ++ shlexQuote wd ++ "" ++ "\n") = _
    rw [strAppend_empty]
    rfl
  rw [heq] at h
  simpa using h

theorem foldl_quote_eq_joinArgs (args : List String) :
    ∀ init : String,
      args.foldl (fun acc arg => acc ++ " " ++ shlexQuote arg) init =
        init ++ joinArgs args := by
  induction args with
  | nil =>
    intro init
    simp only [List.foldl_nil, joinArgs]
    rw [strAppend_empty]
  | cons a rest ih =>
    intro init
    simp only [List.foldl_cons, joinArgs, ih]
    rw [String.append_assoc, String.append_assoc, String.append_assoc]

/-- C6: `execute_script` with no requested working directory, or with
one equal to the proxy's current directory, produces a command line
with no directory-change prefix — exactly the main `%<command>`
instruction with the relative filename and each argument
shell-quoted, which the shell-style parser splits back into the
command token, the filename and the original arguments (so paths with
spaces round-trip).  With a different requested directory it produces
exactly one `%cd` instruction (whose quoted argument parses back to
the directory) followed by the main instruction. -/
theorem C6_execute_script_cmd_line (relpath : String → String → String)
    (cwd script_path : String) (args : List String)
    (working_directory : Option String) (command_name : String)
    (hname_ne : command_name ≠ "")
    (hname_safe : command_name.toList.all shlexSafeChar = true)
    (hargs : ∀ a ∈ args, squot ∉ a.toList) :
    ((working_directory = none ∨ working_directory = some cwd) →
      squot ∉ (relpath script_path cwd).toList →
      execute_script relpath cwd script_path args working_directory command_name =
        "%" ++ command_name ++ " " ++ shlexQuote (relpath script_path cwd)
          ++ joinArgs args ++ "\n"
      ∧ shellSplit (execute_script relpath cwd script_path args
            working_directory command_name) =
          some (("%" ++ command_name) :: relpath script_path cwd :: args))
    ∧ (∀ wd : String, working_directory = some wd → cwd ≠ wd →
        squot ∉ wd.toList → squot ∉ (relpath script_path wd).toList →
        execute_script relpath cwd script_path args working_directory command_name =
          ("%cd " ++ shlexQuote wd ++ "\n") ++
            ("%" ++ command_name ++ " " ++ shlexQuote (relpath script_path wd)
              ++ joinArgs args ++ "\n")
        ∧ shellSplit ("%cd " ++ shlexQuote wd ++ "\n") = some ["%cd", wd]
        ∧ shellSplit ("%" ++ command_name ++ " "
            ++ shlexQuote (relpath script_path wd) ++ joinArgs args ++ "\n") =
            some (("%" ++ command_name) :: relpath script_path wd :: args)) := by
  constructor
  · intro hwd hrel
    have hline : execute_script relpath cwd script_path args
        working_directory command_name =
        "%" ++ command_name ++ " " ++ shlexQuote (relpath script_path cwd)
          ++ joinArgs args ++ "\n" := by
      have h00 : (("" : String) ++ "%") = "%" := rfl
      rcases hwd with h | h
      · subst h
        simp only [execute_script]
        rw [foldl_quote_eq_joinArgs, h00]
      · subst h
        simp only [execute_script]
        rw [if_neg (by simp)]
        rw [foldl_quote_eq_joinArgs, h00]
    refine ⟨hline, ?_⟩
    rw [hline]
    exact shellSplit_instruction command_name (relpath script_path cwd) args
      hname_ne hname_safe hrel hargs
  · intro wd hwd hne hsq hrel
    subst hwd
    have hline : execute_script relpath cwd script_path args
        (some wd) command_name =
        ("%cd " ++ shlexQuote wd ++ "\n") ++
          ("%" ++ command_name ++ " " ++ shlexQuote (relpath script_path wd)
            ++ joinArgs args ++ "\n") := by
      have hassoc : ∀ a b c d e f g : String,
          a ++ b ++ c ++ d ++ e ++ f ++ g = a ++ (b ++ c ++ d ++ e ++ f ++ g) := by
        intro a b c d e f g
        simp [String.append_assoc]
      simp only [execute_script]
      rw [if_pos hne]
      rw [foldl_quote_eq_joinArgs]
      exact hassoc ("%cd " ++ shlexQuote wd ++ "\n") "%" command_name " "
        (shlexQuote (relpath script_path wd)) (joinArgs args) "\n"
    exact ⟨hline, shellSplit_cd_instruction wd hsq,
      shellSplit_instruction command_name (relpath script_path wd) args
        hname_ne hname_safe hrel hargs⟩

/-- Witness for C6 at concrete inputs with spaces in every path: the
compound line for a differing directory, and the plain line when no
directory change is requested. -/
theorem C6_execute_script_cmd_line_witness :
    (execute_script (fun p _ => p) "/home" "my script.py" ["a b"]
        (some "/tmp/di r") "Run" =
        ("%cd " ++ shlexQuote "/tmp/di r" ++ "\n") ++
          ("%" ++ "Run" ++ " " ++ shlexQuote "my script.py"
            ++ joinArgs ["a b"] ++ "\n")
      ∧ shellSplit ("%cd " ++ shlexQuote "/tmp/di r" ++ "\n") =
          some ["%cd", "/tmp/di r"]
      ∧ shellSplit ("%" ++ "Run" ++ " " ++ shlexQuote "my script.py"
            ++ joinArgs ["a b"] ++ "\n") =
          some (("%" ++ "Run") :: "my script.py" :: ["a b"]))
    ∧ (execute_script (fun p _ => p) "/home" "my script.py" ["a b"] none "Run" =
        "%" ++ "Run" ++ " " ++ shlexQuote "my script.py"
          ++ joinArgs ["a b"] ++ "\n"
      ∧ shellSplit (execute_script (fun p _ => p) "/home" "my script.py" ["a b"]
            none "Run") =
          some (("%" ++ "Run") :: "my script.py" :: ["a b"])) := by
  constructor
  · exact (C6_execute_script_cmd_line (fun p _ => p) "/home" "my script.py"
      ["a b"] (some "/tmp/di r") "Run" (by decide) (by decide) (by decide)).2
      "/tmp/di r" rfl (by decide) (by decide) (by decide)
  · exact (C6_execute_script_cmd_line (fun p _ => p) "/home" "my script.py"
      ["a b"] none "Run" (by decide) (by decide) (by decide)).1
      (Or.inl rfl) (by decide)

end PyStart
